import Mathlib

/-!
Formal model of `find_files.py`, a single-directory file watcher that
classifies files as text or binary, caches their line content, debounces
repeated "modified" events, produces unified diffs of text changes, and
sends one email notification per processed event.

The model is a shallow embedding: file reads, the clock, and the mail
transport are passed in as explicit values; the Python `json` and
`difflib` library calls made by the source are modelled by executable
Lean functions that follow those libraries' documented behaviour.
-/

/-- Result of the two reads the source performs on a file at one instant:
`chunk` is the first 1024 bytes obtained by the binary-mode open in
`is_text_file` (`none` when that open or read raises), and `text` is the
full UTF-8 decoded content obtained by the text-mode open in
`read_file_content` (`none` when that open, read, or decode raises). -/
structure FileModel where
  chunk : Option (List Nat)
  text : Option String
deriving DecidableEq

/-- Model of `is_text_file`: true when every byte of the first 1024 bytes
is below 128 or is one of newline, carriage return, tab; false when the
binary-mode read raises (the source logs the error and returns `False`). -/
def is_text_file (f : FileModel) : Bool :=
  match f.chunk with
  | some chunk => chunk.all (fun c => c < 128 || c == 10 || c == 13 || c == 9)
  | none => false

/-- Model of Python `str.startswith`, on the character list. -/
def strStartsWith (s p : String) : Bool :=
  p.toList.isPrefixOf s.toList

/-- Model of Python `str.endswith`, on the character list. -/
def strEndsWith (s suffix : String) : Bool :=
  suffix.toList.isSuffixOf s.toList

/-- JSON values, modelling the documents handled by the Python `json`
module in the source. Numbers are restricted to integers: the source's
behaviour on float-valued JSON is outside this model. -/
inductive JsonVal where
  | null
  | bool (b : Bool)
  | num (n : Int)
  | str (s : String)
  | arr (items : List JsonVal)
  | obj (members : List (String × JsonVal))

/-- Skip JSON whitespace, as `json.loads` does between tokens. -/
def skipWs : List Char → List Char
  | [] => []
  | c :: rest =>
    if c == ' ' || c == '\t' || c == '\n' || c == '\r' then skipWs rest
    else c :: rest

/-- Decode a single-character JSON escape. -/
def escDecode (e : Char) : Option Char :=
  if e == '"' then some '"'
  else if e == '\\' then some '\\'
  else if e == '/' then some '/'
  else if e == 'b' then some (Char.ofNat 8)
  else if e == 'f' then some (Char.ofNat 12)
  else if e == 'n' then some '\n'
  else if e == 'r' then some '\r'
  else if e == 't' then some '\t'
  else none

/-- Value of a hexadecimal digit, if any. -/
def digitVal16 (c : Char) : Option Nat :=
  if '0' ≤ c ∧ c ≤ '9' then some (c.toNat - 48)
  else if 'a' ≤ c ∧ c ≤ 'f' then some (c.toNat - 87)
  else if 'A' ≤ c ∧ c ≤ 'F' then some (c.toNat - 55)
  else none

/-- Parse the body of a JSON string literal, after the opening quote; the
fuel bounds recursion depth and any fuel of at least the input length
suffices. Returns the decoded characters and the input after the closing
quote. Surrogate-pair escapes are outside the model. -/
def parseStringBody : Nat → List Char → Option (List Char × List Char)
  | 0, _ => none
  | _, [] => none
  | Nat.succ fuel, c :: rest =>
    if c == '"' then some ([], rest)
    else if c == '\\' then
      match rest with
      | [] => none
      | e :: rest2 =>
        if e == 'u' then
          match rest2 with
          | h1 :: h2 :: h3 :: h4 :: rest3 =>
            match digitVal16 h1, digitVal16 h2, digitVal16 h3, digitVal16 h4 with
            | some a, some b, some c2, some d =>
              (parseStringBody fuel rest3).map
                (fun p => (Char.ofNat (4096 * a + 256 * b + 16 * c2 + d) :: p.1, p.2))
            | _, _, _, _ => none
          | _ => none
        else
          match escDecode e with
          | some c2 => (parseStringBody fuel rest2).map (fun p => (c2 :: p.1, p.2))
          | none => none
    else (parseStringBody fuel rest).map (fun p => (c :: p.1, p.2))

/-- Longest prefix of decimal digits, and the rest of the input. -/
def takeDigits : List Char → (List Char × List Char)
  | [] => ([], [])
  | c :: rest =>
    if '0' ≤ c ∧ c ≤ '9' then
      let p := takeDigits rest
      (c :: p.1, p.2)
    else ([], c :: rest)

/-- Numeric value of a digit string. -/
def digitsToNat (ds : List Char) : Nat :=
  ds.foldl (fun acc c => 10 * acc + (c.toNat - 48)) 0

/-- Parse a non-negative JSON integer numeral. Numerals continuing with a
fraction or exponent are floats, which are outside the model. -/
def parsePosNumber (s : List Char) : Option (Nat × List Char) :=
  let p := takeDigits s
  if p.1 = [] then none
  else
    match p.2 with
    | '.' :: _ => none
    | 'e' :: _ => none
    | 'E' :: _ => none
    | rest => some (digitsToNat p.1, rest)

/-- Parse a JSON integer numeral with optional leading minus sign. -/
def parseNumber (s : List Char) : Option (JsonVal × List Char) :=
  match s with
  | '-' :: rest => (parsePosNumber rest).map (fun p => (JsonVal.num (-(p.1 : Int)), p.2))
  | _ => (parsePosNumber s).map (fun p => (JsonVal.num (p.1 : Int), p.2))

mutual

/-- Parse one JSON value, modelling `json.loads`. The fuel bounds
recursion depth; any fuel of at least the input length plus two suffices,
since every recursive call follows the consumption of at least one input
character. -/
def parseVal : Nat → List Char → Option (JsonVal × List Char)
  | 0, _ => none
  | Nat.succ fuel, s =>
    match skipWs s with
    | 'n' :: 'u' :: 'l' :: 'l' :: r => some (JsonVal.null, r)
    | 't' :: 'r' :: 'u' :: 'e' :: r => some (JsonVal.bool true, r)
    | 'f' :: 'a' :: 'l' :: 's' :: 'e' :: r => some (JsonVal.bool false, r)
    | '"' :: r =>
      (parseStringBody (r.length + 1) r).map (fun p => (JsonVal.str (String.mk p.1), p.2))
    | '[' :: r =>
      (match skipWs r with
       | ']' :: r2 => some (JsonVal.arr [], r2)
       | r2 => (parseArrItems fuel r2).map (fun p => (JsonVal.arr p.1, p.2)))
    | '\x7b' :: r =>
      (match skipWs r with
       | '\x7d' :: r2 => some (JsonVal.obj [], r2)
       | r2 => (parseObjItems fuel r2).map (fun p => (JsonVal.obj p.1, p.2)))
    | s2 => parseNumber s2

/-- Parse the comma-separated items of a nonempty JSON array, up to and
including the closing bracket. -/
def parseArrItems : Nat → List Char → Option (List JsonVal × List Char)
  | 0, _ => none
  | Nat.succ fuel, s =>
    match parseVal fuel s with
    | none => none
    | some (v, r) =>
      match skipWs r with
      | ',' :: r2 => (parseArrItems fuel r2).map (fun p => (v :: p.1, p.2))
      | ']' :: r2 => some ([v], r2)
      | _ => none

/-- Parse the comma-separated members of a nonempty JSON object, up to and
including the closing brace. -/
def parseObjItems : Nat → List Char → Option (List (String × JsonVal) × List Char)
  | 0, _ => none
  | Nat.succ fuel, s =>
    match skipWs s with
    | '"' :: r =>
      (match parseStringBody (r.length + 1) r with
       | none => none
       | some (key, r2) =>
         match skipWs r2 with
         | ':' :: r3 =>
           (match parseVal fuel r3 with
            | none => none
            | some (v, r4) =>
              match skipWs r4 with
              | ',' :: r5 => (parseObjItems fuel r5).map (fun p => ((String.mk key, v) :: p.1, p.2))
              | '\x7d' :: r5 => some ([(String.mk key, v)], r5)
              | _ => none)
         | _ => none)
    | _ => none

end

/-- Model of `json.load` on the full file content: parse one JSON value
and require only whitespace after it. -/
def loads (s : String) : Option JsonVal :=
  match parseVal (s.length + 2) s.toList with
  | some (j, rest) => if skipWs rest = [] then some j else none
  | none => none

/-- Lowercase hexadecimal digit, as `json.dumps` emits in escapes. -/
def hexDigit (n : Nat) : Char :=
  if n < 10 then Char.ofNat (48 + n) else Char.ofNat (87 + n)

/-- Four-digit lowercase hexadecimal rendering of a code point. -/
def hex4 (n : Nat) : List Char :=
  [hexDigit (n / 4096 % 16), hexDigit (n / 256 % 16), hexDigit (n / 16 % 16), hexDigit (n % 16)]

/-- Escape one character as `json.dumps` does with its default
`ensure_ascii=True`; code points beyond the basic multilingual plane
(surrogate pairs) are outside the model. -/
def escapeChar (c : Char) : List Char :=
  if c == '"' then ['\\', '"']
  else if c == '\\' then ['\\', '\\']
  else if c == '\n' then ['\\', 'n']
  else if c == '\r' then ['\\', 'r']
  else if c == '\t' then ['\\', 't']
  else if c == Char.ofNat 8 then ['\\', 'b']
  else if c == Char.ofNat 12 then ['\\', 'f']
  else if c.toNat < 32 ∨ 127 ≤ c.toNat then '\\' :: 'u' :: hex4 c.toNat
  else [c]

/-- Serialize a string as a JSON string literal, as `json.dumps` does. -/
def dumpStr (s : String) : String :=
  "\"" ++ String.mk (s.toList.flatMap escapeChar) ++ "\""

/-- Indentation emitted by `json.dumps(content, indent=4)` at nesting
depth `d`. -/
def indentStr (d : Nat) : String :=
  String.mk (List.replicate (4 * d) ' ')

mutual

/-- Serialize a JSON value at nesting depth `d`, modelling
`json.dumps(content, indent=4)`: items of nonempty arrays and objects
each appear on their own indented line, separated by commas, with the
closing bracket on a line of its own at the enclosing depth. -/
def dumpsVal : JsonVal → Nat → String
  | JsonVal.null, _ => "null"
  | JsonVal.bool true, _ => "true"
  | JsonVal.bool false, _ => "false"
  | JsonVal.num n, _ => toString n
  | JsonVal.str s, _ => dumpStr s
  | JsonVal.arr [], _ => "[]"
  | JsonVal.arr (x :: xs), d =>
    "[\n" ++ String.intercalate (",\n") (dumpsList (x :: xs) (d + 1))
      ++ "\n" ++ indentStr d ++ "]"
  | JsonVal.obj [], _ => "\x7b\x7d"
  | JsonVal.obj (kv :: kvs), d =>
    "\x7b\n" ++ String.intercalate (",\n") (dumpsObjList (kv :: kvs) (d + 1))
      ++ "\n" ++ indentStr d ++ "\x7d"

/-- Serialized lines of array items at depth `d`. -/
def dumpsList : List JsonVal → Nat → List String
  | [], _ => []
  | x :: xs, d => (indentStr d ++ dumpsVal x d) :: dumpsList xs d

/-- Serialized lines of object members at depth `d`. -/
def dumpsObjList : List (String × JsonVal) → Nat → List String
  | [], _ => []
  | (k, v) :: kvs, d => (indentStr d ++ dumpStr k ++ ": " ++ dumpsVal v d) :: dumpsObjList kvs d

end

/-- Model of `json.dumps(content, indent=4)`. -/
def dumps (j : JsonVal) : String :=
  dumpsVal j 0

/-- Accumulating pass behind `splitlines`: `acc` holds the reversed
characters of the current line. -/
def splitlinesAux : List Char → List Char → List (List Char)
  | [], acc => if acc = [] then [] else [acc.reverse]
  | '\r' :: '\n' :: rest, acc => acc.reverse :: splitlinesAux rest []
  | '\n' :: rest, acc => acc.reverse :: splitlinesAux rest []
  | '\r' :: rest, acc => acc.reverse :: splitlinesAux rest []
  | c :: rest, acc => splitlinesAux rest (c :: acc)

/-- Model of Python `str.splitlines()` restricted to the `\n`, `\r`, and
`\r\n` line boundaries: line terminators are dropped and a trailing
terminator produces no extra empty line. -/
def splitlines (s : String) : List String :=
  (splitlinesAux s.toList []).map (fun cs => String.mk cs)

/-- Model of `read_file_content`: a `.json` path is parsed as JSON and
re-serialized with 4-space indentation before splitting into lines; other
paths are split into lines when the byte probe classifies them as text;
otherwise the binary sentinel `none` is returned. Any raised error
(unreadable or undecodable content, malformed JSON) is caught, logged,
and yields the empty line list. -/
def read_file_content (file_path : String) (f : FileModel) : Option (List String) :=
  if strEndsWith file_path (".json") then
    match f.text with
    | none => some []
    | some t =>
      match loads t with
      | none => some []
      | some j => some (splitlines (dumps j))
  else if is_text_file f then
    match f.text with
    | none => some []
    | some t => some (splitlines t)
  else none

/-- Length of the longest common prefix of two line lists. -/
def matchLen : List String → List String → Nat
  | x :: xs, y :: ys => if x = y then matchLen xs ys + 1 else 0
  | _, _ => 0

/-- Model of `difflib.SequenceMatcher.find_longest_match` without the
junk heuristics (the source's inputs never trigger them): among all
maximal matching blocks, the one starting earliest in `a`, and of those
the one starting earliest in `b`, found by scanning candidate start pairs
in ascending order and keeping the first strictly longer match. -/
def bestCandidate (a b : List String) : Nat × Nat × Nat :=
  ((List.range a.length).flatMap (fun i =>
    (List.range b.length).map (fun j => (i, j, matchLen (a.drop i) (b.drop j))))).foldl
    (fun best c => if best.2.2 < c.2.2 then c else best) (0, 0, 0)

/-- Model of `difflib.SequenceMatcher.get_matching_blocks` before the
final sentinel: recursively find the longest match and the matches to its
left and right. The fuel bounds the recursion depth; every recursive call
strictly shrinks the combined length of the two slices, so any fuel of at
least `a.length + b.length + 1` suffices. -/
def matchingBlocksAux : Nat → List String → List String → List (Nat × Nat × Nat)
  | 0, _, _ => []
  | Nat.succ fuel, a, b =>
    let m := bestCandidate a b
    if m.2.2 = 0 then []
    else
      matchingBlocksAux fuel (a.take m.1) (b.take m.2.1) ++
        ((m.1, m.2.1, m.2.2) ::
          (matchingBlocksAux fuel (a.drop (m.1 + m.2.2)) (b.drop (m.2.1 + m.2.2))).map
            (fun c => (c.1 + (m.1 + m.2.2), c.2.1 + (m.2.1 + m.2.2), c.2.2)))

/-- Matching blocks of two line lists, with the terminating sentinel
block of `get_matching_blocks`. -/
def getMatchingBlocks (a b : List String) : List (Nat × Nat × Nat) :=
  matchingBlocksAux (a.length + b.length + 1) a b ++ [(a.length, b.length, 0)]

/-- Edit-operation tags of `difflib.SequenceMatcher.get_opcodes`. -/
inductive DiffTag where
  | replace
  | delete
  | insert
  | equal
deriving DecidableEq

/-- One opcode of `get_opcodes`: a tag with the half-open ranges it
covers in each sequence. -/
structure Opcode where
  tag : DiffTag
  i1 : Nat
  i2 : Nat
  j1 : Nat
  j2 : Nat
deriving DecidableEq

/-- Walk the matching blocks and emit the opcodes between and inside
them, as `get_opcodes` does; `i` and `j` are the positions reached so far
in each sequence. -/
def opcodesLoop : Nat → Nat → List (Nat × Nat × Nat) → List Opcode
  | _, _, [] => []
  | i, j, (ai, bj, size) :: rest =>
    (if i < ai ∧ j < bj then [⟨DiffTag.replace, i, ai, j, bj⟩]
     else if i < ai then [⟨DiffTag.delete, i, ai, j, bj⟩]
     else if j < bj then [⟨DiffTag.insert, i, ai, j, bj⟩]
     else []) ++
    (if 0 < size then [⟨DiffTag.equal, ai, ai + size, bj, bj + size⟩] else []) ++
    opcodesLoop (ai + size) (bj + size) rest

/-- Model of `difflib.SequenceMatcher.get_opcodes`. -/
def getOpcodes (a b : List String) : List Opcode :=
  opcodesLoop 0 0 (getMatchingBlocks a b)

/-- Shrink a leading `equal` opcode to its last `n` lines, as
`get_grouped_opcodes` does before grouping. -/
def fixFirst (n : Nat) : List Opcode → List Opcode
  | [] => []
  | c :: rest =>
    if c.tag = DiffTag.equal then
      ⟨c.tag, max c.i1 (c.i2 - n), c.i2, max c.j1 (c.j2 - n), c.j2⟩ :: rest
    else c :: rest

/-- Shrink a trailing `equal` opcode to its first `n` lines, as
`get_grouped_opcodes` does before grouping. -/
def fixLast (n : Nat) : List Opcode → List Opcode
  | [] => []
  | [c] =>
    if c.tag = DiffTag.equal then
      [⟨c.tag, c.i1, min c.i2 (c.i1 + n), c.j1, min c.j2 (c.j1 + n)⟩]
    else [c]
  | c :: rest => c :: fixLast n rest

/-- Grouping loop of `get_grouped_opcodes`: split the opcode list into
hunks wherever an `equal` opcode spans more than `2 * n` lines, shrinking
it to `n` lines of context on each side, and drop a final group that is a
single `equal` opcode. -/
def groupLoop (n : Nat) (group : List Opcode) : List Opcode → List (List Opcode)
  | [] =>
    if group = [] then []
    else if group.length = 1 ∧ group.head?.map Opcode.tag = some DiffTag.equal then []
    else [group]
  | c :: rest =>
    if c.tag = DiffTag.equal ∧ 2 * n < c.i2 - c.i1 then
      (group ++ [⟨DiffTag.equal, c.i1, min c.i2 (c.i1 + n), c.j1, min c.j2 (c.j1 + n)⟩]) ::
        groupLoop n [⟨DiffTag.equal, max c.i1 (c.i2 - n), c.i2, max c.j1 (c.j2 - n), c.j2⟩] rest
    else groupLoop n (group ++ [c]) rest

/-- Model of `difflib.SequenceMatcher.get_grouped_opcodes` with `n` lines
of context: opcodes with a synthetic `equal` opcode when there are none,
leading and trailing context shrunk, then grouped into hunks. -/
def getGroupedOpcodes (a b : List String) (n : Nat) : List (List Opcode) :=
  let codes0 := getOpcodes a b
  let codes1 := if codes0 = [] then [⟨DiffTag.equal, 0, 1, 0, 1⟩] else codes0
  groupLoop n [] (fixLast n (fixFirst n codes1))

/-- Model of `difflib._format_range_unified`: render a half-open line
range in unified-diff hunk-header form, 1-based, with the length omitted
when it is exactly one. -/
def formatRangeUnified (start stop : Nat) : String :=
  let beginning := start + 1
  let length := stop - start
  if length = 1 then toString beginning
  else toString (if length = 0 then beginning - 1 else beginning) ++ "," ++ toString length

/-- The slice `l[i:j]` of a line list, for `i ≤ j`. -/
def sliceList (l : List String) (i j : Nat) : List String :=
  (l.drop i).take (j - i)

/-- Lines emitted for one opcode of a hunk: context lines prefixed by a
space, removed lines by `-`, inserted lines by `+`. -/
def formatOpcode (a b : List String) (c : Opcode) : List String :=
  match c.tag with
  | DiffTag.equal => (sliceList a c.i1 c.i2).map (fun x => " " ++ x)
  | DiffTag.replace =>
    (sliceList a c.i1 c.i2).map (fun x => "-" ++ x) ++
      (sliceList b c.j1 c.j2).map (fun x => "+" ++ x)
  | DiffTag.delete => (sliceList a c.i1 c.i2).map (fun x => "-" ++ x)
  | DiffTag.insert => (sliceList b c.j1 c.j2).map (fun x => "+" ++ x)

/-- Lines of one hunk: the `@@` header computed from the group's first
and last opcodes, then the prefixed lines of each opcode. -/
def formatGroup (a b : List String) : List Opcode → List String
  | [] => []
  | first :: rest =>
    ("@@ -" ++ formatRangeUnified first.i1 (((first :: rest).getLast (List.cons_ne_nil first rest)).i2)
      ++ " +" ++ formatRangeUnified first.j1 (((first :: rest).getLast (List.cons_ne_nil first rest)).j2)
      ++ " @@") ::
    (first :: rest).flatMap (formatOpcode a b)

/-- Model of `difflib.unified_diff(a, b, fromfile, tofile, lineterm='')`
with `n` lines of context: the two `---`/`+++` header lines when any hunk
exists, then each hunk's lines; with the empty `lineterm` no entry
carries a trailing line terminator. -/
def unified_diff (a b : List String) (fromfile tofile : String) (n : Nat) : List String :=
  match getGroupedOpcodes a b n with
  | [] => []
  | g :: gs => ("--- " ++ fromfile) :: ("+++ " ++ tofile) :: (g :: gs).flatMap (formatGroup a b)

/-- Lookup in a Python dict modelled as an association list: the value at
the first entry with the given key. -/
def dictGet (k : String) : List (String × α) → Option α
  | [] => none
  | (k2, v) :: rest => if k2 = k then some v else dictGet k rest

/-- Assignment `m[k] = v` on a Python dict modelled as an association
list: replace the value at an existing key, else append the new entry. -/
def dictInsert (k : String) (v : α) : List (String × α) → List (String × α)
  | [] => [(k, v)]
  | (k2, v2) :: rest => if k2 = k then (k, v) :: rest else (k2, v2) :: dictInsert k v rest

/-- Removal `m.pop(k, None)` on a Python dict modelled as an association
list: drop the entry with the given key, if any (keys are unique in every
reachable state, so filtering equals removing the one entry). -/
def dictPop (k : String) (m : List (String × α)) : List (String × α) :=
  m.filter (fun p => ¬(p.1 = k))

/-- Model of `os.path.basename` for the watched paths: the suffix after
the last path separator, with both the Windows and POSIX separators
recognized as `ntpath` does. -/
def basename (p : String) : String :=
  String.mk ((p.toList.reverse.takeWhile (fun c => !(c == '/' || c == '\\'))).reverse)

/-- The filter applied to the system's own log artifacts: file names
starting with `FileMonitor_` and ending with `.log` are skipped. -/
def isLogArtifact (name : String) : Bool :=
  strStartsWith name ("FileMonitor_") && strEndsWith name (".log")

/-- A filesystem event as delivered by the watch service: whether the
path is a directory, and the source path. -/
structure FsEvent where
  is_directory : Bool
  src_path : String
deriving DecidableEq

/-- The action string passed to `process_file` by the three watchdog
callbacks. -/
inductive FileAction where
  | created
  | modified
  | deleted
deriving DecidableEq

/-- One attempted email notification. `delivered` records whether the
SMTP transport succeeded; `send_email` catches every transport failure
and logs it, so the attempt never raises. -/
structure Email where
  subject : String
  body : String
  delivered : Bool
deriving DecidableEq

/-- Model of `send_email`: build the message and attempt delivery through
the transport, whose outcome is the `transportOk` input; failures are
caught and logged, so the function returns normally either way. -/
def send_email (transportOk : Bool) (subject body : String) : Email :=
  ⟨subject, body, transportOk⟩

/-- The handler's process-wide mutable state: `file_content` maps file
name to cached line list (`none` marking binary), `last_modified_files`
maps file name to the timestamp of the last processed event. -/
structure HandlerState where
  file_content : List (String × Option (List String))
  last_modified_files : List (String × Int)
deriving DecidableEq

/-- The module-level state at load: both dicts empty. -/
def emptyState : HandlerState :=
  ⟨[], []⟩

/-- Debounce threshold in seconds. -/
def modification_threshold : Int := 5

/-- The `diff_content` computed for a processed text modification: with
no cached old content the new lines joined by newlines, otherwise the
joined unified diff with `before_`/`after_` headers and empty line
terminator. -/
def diff_content (old_content : Option (List String)) (new_content : List String)
    (file_name : String) : String :=
  match old_content with
  | none => String.intercalate ("\n") new_content
  | some old =>
    String.intercalate ("\n")
      (unified_diff old new_content (("before_") ++ file_name) (("after_") ++ file_name) 3)

/-- Model of `FindFilesHandler.process_file` for one event. Directory
events and the system's own log artifacts are filtered out. `created`
reads and caches content and notifies; `modified` first applies the
debounce check against the cached timestamp (default 0) and on
suppression returns with nothing changed, otherwise reads new content,
notifies with a diff (or a binary notice), and updates both maps;
`deleted` notifies and removes the entry from both maps. The clock
reading, the file's read outcomes, and the transport outcome are the
explicit inputs `current_time`, `f`, and `transportOk`. -/
def process_file (st : HandlerState) (event : FsEvent) (action : FileAction)
    (current_time : Int) (f : FileModel) (transportOk : Bool) : HandlerState × List Email :=
  if event.is_directory then (st, [])
  else
    let file_name := basename event.src_path
    if isLogArtifact file_name then (st, [])
    else
      match action with
      | FileAction.created =>
        let content := read_file_content event.src_path f
        let st2 : HandlerState :=
          ⟨dictInsert file_name content st.file_content,
           dictInsert file_name current_time st.last_modified_files⟩
        let body :=
          match content with
          | none => ("A new binary file \'") ++ file_name ++ ("\' has been created.")
          | some _ => ("A new text file \'") ++ file_name ++ ("\' has been created.")
        (st2, [send_email transportOk (("File Created: ") ++ file_name) body])
      | FileAction.modified =>
        let last_time := (dictGet file_name st.last_modified_files).getD 0
        if current_time - last_time ≤ modification_threshold then (st, [])
        else
          let new_content := read_file_content event.src_path f
          let old_content := (dictGet file_name st.file_content).getD none
          let email :=
            match new_content with
            | none =>
              send_email transportOk (("Binary File Modified: ") ++ file_name)
                (file_name ++ (" was modified (binary file, no diff)."))
            | some newLines =>
              send_email transportOk (("File Modified: ") ++ file_name)
                (("Changes in ") ++ file_name ++ (":\n\n") ++ diff_content old_content newLines file_name)
          (⟨dictInsert file_name new_content st.file_content,
            dictInsert file_name current_time st.last_modified_files⟩, [email])
      | FileAction.deleted =>
        let email :=
          send_email transportOk (("File Deleted: ") ++ file_name)
            (("The file ") ++ file_name ++ (" has been deleted."))
        (⟨dictPop file_name st.file_content, dictPop file_name st.last_modified_files⟩, [email])

/-- One entry of the directory listing at startup: its name, whether it
is a regular file, its read outcomes, and the clock reading at the moment
it is processed. -/
structure DirEntry where
  name : String
  isFile : Bool
  file : FileModel
  time : Int

/-- Model of `os.path.join` on the watched Windows directory. Only the
suffix of the result is ever inspected, so the separator choice is not
observable. -/
def pathJoin (d name : String) : String :=
  d ++ ("\\") ++ name

/-- Model of `FindFilesHandler.initialize_content`: walk the directory
listing, skip non-files and the system's own log artifacts, and seed both
maps with each remaining file's classified content and timestamp. -/
def initialize_content (directory : String) (entries : List DirEntry)
    (st : HandlerState) : HandlerState :=
  match entries with
  | [] => st
  | e :: rest =>
    initialize_content directory rest
      (if e.isFile then
        if isLogArtifact e.name then st
        else
          ⟨dictInsert e.name (read_file_content (pathJoin directory e.name) e.file) st.file_content,
           dictInsert e.name e.time st.last_modified_files⟩
      else st)

/-- The two maps track exactly the same set of file names. -/
def SyncedKeys (st : HandlerState) : Prop :=
  ∀ n, (dictGet n st.file_content).isSome = (dictGet n st.last_modified_files).isSome

theorem dictGet_dictInsert (k k2 : String) (v : α) (m : List (String × α)) :
    dictGet k2 (dictInsert k v m) = if k = k2 then some v else dictGet k2 m := by
  induction m with
  | nil => simp [dictGet, dictInsert]
  | cons p rest ih =>
    obtain ⟨k3, v3⟩ := p
    by_cases h : k3 = k
    · subst h
      simp only [dictInsert, if_pos rfl, dictGet]
      split_ifs <;> simp_all [dictGet]
    · simp only [dictInsert, if_neg h, dictGet]
      split_ifs with h1 h2 <;> simp_all [dictGet]

theorem dictGet_dictPop (k k2 : String) (m : List (String × α)) :
    dictGet k2 (dictPop k m) = if k = k2 then none else dictGet k2 m := by
  induction m with
  | nil => simp [dictGet, dictPop]
  | cons p rest ih =>
    obtain ⟨k3, v3⟩ := p
    simp only [dictPop, List.filter] at ih ⊢
    split_ifs with h1 <;> by_cases h2 : k3 = k <;> simp_all [dictGet]

theorem process_file_modified_skip (st : HandlerState) (ev : FsEvent) (t : Int)
    (f : FileModel) (ok : Bool)
    (h1 : ev.is_directory = false)
    (h2 : isLogArtifact (basename ev.src_path) = false)
    (h3 : t - (dictGet (basename ev.src_path) st.last_modified_files).getD 0 ≤
      modification_threshold) :
    process_file st ev FileAction.modified t f ok = (st, []) := by
  simp [process_file, h1, h2, h3]

theorem process_file_modified_send (st : HandlerState) (ev : FsEvent) (t : Int)
    (f : FileModel) (ok : Bool)
    (h1 : ev.is_directory = false)
    (h2 : isLogArtifact (basename ev.src_path) = false)
    (h3 : modification_threshold <
      t - (dictGet (basename ev.src_path) st.last_modified_files).getD 0) :
    (process_file st ev FileAction.modified t f ok).1 =
      ⟨dictInsert (basename ev.src_path) (read_file_content ev.src_path f) st.file_content,
       dictInsert (basename ev.src_path) t st.last_modified_files⟩ ∧
    (process_file st ev FileAction.modified t f ok).2.length = 1 := by
  have h4 : ¬(t - (dictGet (basename ev.src_path) st.last_modified_files).getD 0 ≤
      modification_threshold) := not_le.mpr h3
  simp only [process_file, h1, Bool.false_eq_true, if_false, h2, if_neg h4]
  cases read_file_content ev.src_path f <;> simp

theorem process_file_len_le_one (st : HandlerState) (ev : FsEvent) (a : FileAction)
    (t : Int) (f : FileModel) (ok : Bool) :
    (process_file st ev a t f ok).2.length ≤ 1 := by
  cases a with
  | created =>
    simp only [process_file]
    split
    · simp
    · split <;> simp
  | modified =>
    simp only [process_file]
    split
    · simp
    · split
      · simp
      · split
        · simp
        · cases read_file_content ev.src_path f <;> simp
  | deleted =>
    simp only [process_file]
    split
    · simp
    · split <;> simp

/-- C2: processing a "modified" event that the debounce policy suppresses
changes nothing: the returned state is exactly the input state — cached
line sequences and last-seen timestamps untouched — and no notification
is attempted, so any later non-debounced modification diffs against the
content cached before the suppressed one. -/
theorem C2_debounced_modified_is_noop (st : HandlerState) (ev : FsEvent) (t : Int)
    (f : FileModel) (ok : Bool)
    (h1 : ev.is_directory = false)
    (h2 : isLogArtifact (basename ev.src_path) = false)
    (h3 : t - (dictGet (basename ev.src_path) st.last_modified_files).getD 0 ≤
      modification_threshold) :
    process_file st ev FileAction.modified t f ok = (st, []) :=
  process_file_modified_skip st ev t f ok h1 h2 h3

theorem C2_debounced_modified_is_noop_witness :
    process_file emptyState ⟨false, ("a.txt")⟩ FileAction.modified 3 ⟨none, none⟩ true =
      (emptyState, []) :=
  C2_debounced_modified_is_noop emptyState ⟨false, ("a.txt")⟩ 3 ⟨none, none⟩ true rfl
    (by decide) (by decide)

/-- C3: the debounce decision for a "modified" event on a file suppresses
processing exactly when `now - last_seen ≤ 5` with `last_seen` defaulting
to 0 when absent; the threshold is 5; and "created" and "deleted" events
are never suppressed — each always attempts exactly one notification. -/
theorem C3_debounce_decision (st : HandlerState) (ev : FsEvent) (t : Int)
    (f : FileModel) (ok : Bool)
    (h1 : ev.is_directory = false)
    (h2 : isLogArtifact (basename ev.src_path) = false) :
    modification_threshold = 5 ∧
    (process_file st ev FileAction.modified t f ok = (st, []) ↔
      t - (dictGet (basename ev.src_path) st.last_modified_files).getD 0 ≤
        modification_threshold) ∧
    (process_file st ev FileAction.created t f ok).2.length = 1 ∧
    (process_file st ev FileAction.deleted t f ok).2.length = 1 := by
  refine ⟨rfl, ⟨?_, ?_⟩, ?_, ?_⟩
  · intro h
    by_contra hc
    push_neg at hc
    have hs := (process_file_modified_send st ev t f ok h1 h2 hc).2
    rw [h] at hs
    simp at hs
  · intro h
    exact process_file_modified_skip st ev t f ok h1 h2 h
  · simp [process_file, h1, h2]
  · simp [process_file, h1, h2]

theorem C3_debounce_decision_witness :
    modification_threshold = 5 ∧
    (process_file emptyState ⟨false, ("a.txt")⟩ FileAction.modified 9 ⟨none, none⟩ true =
        (emptyState, []) ↔
      (9 : Int) - (dictGet ("a.txt") emptyState.last_modified_files).getD 0 ≤
        modification_threshold) ∧
    (process_file emptyState ⟨false, ("a.txt")⟩ FileAction.created 9 ⟨none, none⟩ true).2.length
      = 1 ∧
    (process_file emptyState ⟨false, ("a.txt")⟩ FileAction.deleted 9 ⟨none, none⟩ true).2.length
      = 1 :=
  C3_debounce_decision emptyState ⟨false, ("a.txt")⟩ 9 ⟨none, none⟩ true rfl (by decide)

/-- C9: a mail-transport failure never escapes the notifier: for every
event the handler state after processing is identical whether delivery
succeeded or failed, and the same notifications (subject and body) are
attempted; processing is a total function, so the dispatcher continues. -/
theorem C9_transport_failure_is_isolated (st : HandlerState) (ev : FsEvent)
    (a : FileAction) (t : Int) (f : FileModel) :
    (process_file st ev a t f true).1 = (process_file st ev a t f false).1 ∧
    (process_file st ev a t f true).2.map (fun e => (e.subject, e.body)) =
      (process_file st ev a t f false).2.map (fun e => (e.subject, e.body)) := by
  cases a with
  | created =>
    simp only [process_file]
    split
    · simp
    · split <;> simp [send_email]
  | modified =>
    simp only [process_file]
    split
    · simp
    · split
      · simp
      · split
        · simp
        · cases read_file_content ev.src_path f <;> simp [send_email]
  | deleted =>
    simp only [process_file]
    split
    · simp
    · split <;> simp [send_email]

theorem synced_insert (st : HandlerState) (name : String) (c : Option (List String))
    (t : Int) (h : SyncedKeys st) :
    SyncedKeys ⟨dictInsert name c st.file_content, dictInsert name t st.last_modified_files⟩ := by
  intro n
  simp only [dictGet_dictInsert]
  split
  · rfl
  · exact h n

theorem synced_pop (st : HandlerState) (name : String) (h : SyncedKeys st) :
    SyncedKeys ⟨dictPop name st.file_content, dictPop name st.last_modified_files⟩ := by
  intro n
  simp only [dictGet_dictPop]
  split
  · rfl
  · exact h n

theorem process_file_synced (st : HandlerState) (ev : FsEvent) (a : FileAction)
    (t : Int) (f : FileModel) (ok : Bool) (h : SyncedKeys st) :
    SyncedKeys (process_file st ev a t f ok).1 := by
  cases a with
  | created =>
    simp only [process_file]
    split
    · exact h
    · split
      · exact h
      · exact synced_insert st (basename ev.src_path) (read_file_content ev.src_path f) t h
  | modified =>
    simp only [process_file]
    split
    · exact h
    · split
      · exact h
      · split
        · exact h
        · exact synced_insert st (basename ev.src_path) (read_file_content ev.src_path f) t h
  | deleted =>
    simp only [process_file]
    split
    · exact h
    · split
      · exact h
      · exact synced_pop st (basename ev.src_path) h

theorem initialize_content_synced (directory : String) (es : List DirEntry)
    (st : HandlerState) (h : SyncedKeys st) :
    SyncedKeys (initialize_content directory es st) := by
  induction es generalizing st with
  | nil => exact h
  | cons e rest ih =>
    simp only [initialize_content]
    apply ih
    split
    · split
      · exact h
      · exact synced_insert st e.name _ e.time h
    · exact h

/-- C10: the content cache and the last-seen map always track exactly the
same key set: initialization from the empty module state yields synced
maps, and every processed event — created, modified (debounced or not),
deleted — preserves syncedness, updating both maps or neither. -/
theorem C10_cache_and_timestamps_synced :
    (∀ (directory : String) (es : List DirEntry),
      SyncedKeys (initialize_content directory es emptyState)) ∧
    (∀ (st : HandlerState) (ev : FsEvent) (a : FileAction) (t : Int) (f : FileModel)
        (ok : Bool), SyncedKeys st → SyncedKeys (process_file st ev a t f ok).1) := by
  constructor
  · intro directory es
    exact initialize_content_synced directory es emptyState (fun n => rfl)
  · intro st ev a t f ok h
    exact process_file_synced st ev a t f ok h

theorem C10_cache_and_timestamps_synced_witness :
    SyncedKeys (process_file emptyState ⟨false, ("a.txt")⟩ FileAction.created 0
      ⟨none, none⟩ true).1 :=
  C10_cache_and_timestamps_synced.2 emptyState ⟨false, ("a.txt")⟩ FileAction.created 0
    ⟨none, none⟩ true (fun _ => rfl)

/-- C8: cache lifecycle — after a processed "deleted" event the lookups
for that name in both maps return absent; an entry present in the content
cache survives any event that is not a processed "deleted" for its name;
and a processed "created" event re-populates the entry with the freshly
classified content and the fresh timestamp, whatever the prior state. -/
theorem C8_cache_lifecycle :
    (∀ (st : HandlerState) (ev : FsEvent) (t : Int) (f : FileModel) (ok : Bool),
      ev.is_directory = false → isLogArtifact (basename ev.src_path) = false →
      dictGet (basename ev.src_path)
          ((process_file st ev FileAction.deleted t f ok).1).file_content = none ∧
      dictGet (basename ev.src_path)
          ((process_file st ev FileAction.deleted t f ok).1).last_modified_files = none) ∧
    (∀ (st : HandlerState) (ev : FsEvent) (a : FileAction) (t : Int) (f : FileModel)
        (ok : Bool) (n : String),
      (dictGet n st.file_content).isSome = true →
      (a = FileAction.deleted → basename ev.src_path ≠ n ∨ ev.is_directory = true ∨
        isLogArtifact (basename ev.src_path) = true) →
      (dictGet n ((process_file st ev a t f ok).1).file_content).isSome = true) ∧
    (∀ (st : HandlerState) (ev : FsEvent) (t : Int) (f : FileModel) (ok : Bool),
      ev.is_directory = false → isLogArtifact (basename ev.src_path) = false →
      dictGet (basename ev.src_path)
          ((process_file st ev FileAction.created t f ok).1).file_content =
        some (read_file_content ev.src_path f) ∧
      dictGet (basename ev.src_path)
          ((process_file st ev FileAction.created t f ok).1).last_modified_files = some t) := by
  refine ⟨?_, ?_, ?_⟩
  · intro st ev t f ok h1 h2
    simp [process_file, h1, h2, dictGet_dictPop]
  · intro st ev a t f ok n hsome hdel
    cases a with
    | created =>
      simp only [process_file]
      split
      · exact hsome
      · split
        · exact hsome
        · simp only [dictGet_dictInsert]
          split
          · rfl
          · exact hsome
    | modified =>
      simp only [process_file]
      split
      · exact hsome
      · split
        · exact hsome
        · split
          · exact hsome
          · simp only [dictGet_dictInsert]
            split
            · rfl
            · exact hsome
    | deleted =>
      rcases hdel rfl with hne | hdir | hlog
      · simp only [process_file]
        split
        · exact hsome
        · split
          · exact hsome
          · simp only [dictGet_dictPop]
            rw [if_neg hne]
            exact hsome
      · simp [process_file, hdir, hsome]
      · simp [process_file, hlog, hsome]
  · intro st ev t f ok h1 h2
    simp [process_file, h1, h2, dictGet_dictInsert]

theorem C8_cache_lifecycle_witness :
    dictGet ("a.txt")
        ((process_file ⟨[(("a.txt"), some [("x")])], [(("a.txt"), 0)]⟩ ⟨false, ("a.txt")⟩
          FileAction.deleted 1 ⟨none, none⟩ true).1).file_content = none ∧
    (dictGet ("b.txt")
        ((process_file ⟨[(("b.txt"), some [])], [(("b.txt"), 0)]⟩ ⟨false, ("a.txt")⟩
          FileAction.deleted 1 ⟨none, none⟩ true).1).file_content).isSome = true ∧
    dictGet ("a.txt")
        ((process_file emptyState ⟨false, ("a.txt")⟩ FileAction.created 7 ⟨none, none⟩
          true).1).file_content = some (read_file_content ("a.txt") ⟨none, none⟩) := by
  have h1 := C8_cache_lifecycle.1 ⟨[(("a.txt"), some [("x")])], [(("a.txt"), 0)]⟩
    ⟨false, ("a.txt")⟩ 1 ⟨none, none⟩ true rfl (by decide)
  have h2 := C8_cache_lifecycle.2.1 ⟨[(("b.txt"), some [])], [(("b.txt"), 0)]⟩
    ⟨false, ("a.txt")⟩ FileAction.deleted 1 ⟨none, none⟩ true ("b.txt") (by decide)
    (fun _ => Or.inl (by decide))
  have h3 := C8_cache_lifecycle.2.2 emptyState ⟨false, ("a.txt")⟩ 7 ⟨none, none⟩ true rfl
    (by decide)
  exact ⟨h1.1, h2, h3.1⟩

/-- C4: debounce idempotence — two "modified" events on the same file
within the 5-second window yield at most one notification between them,
and when the first is processed, a second event inside the window is
suppressed while a third event after the window has elapsed (measured
from the first) is processed again, yielding exactly a second
notification. -/
theorem C4_debounce_idempotence (st : HandlerState) (path : String) (t1 t2 t3 : Int)
    (f1 f2 f3 : FileModel) (o1 o2 o3 : Bool)
    (hlog : isLogArtifact (basename path) = false) :
    (t2 - t1 ≤ modification_threshold →
      (process_file st ⟨false, path⟩ FileAction.modified t1 f1 o1).2.length +
        (process_file (process_file st ⟨false, path⟩ FileAction.modified t1 f1 o1).1
          ⟨false, path⟩ FileAction.modified t2 f2 o2).2.length ≤ 1) ∧
    (modification_threshold <
        t1 - (dictGet (basename path) st.last_modified_files).getD 0 →
      t2 - t1 ≤ modification_threshold →
      modification_threshold < t3 - t1 →
      (process_file st ⟨false, path⟩ FileAction.modified t1 f1 o1).2.length = 1 ∧
      (process_file (process_file st ⟨false, path⟩ FileAction.modified t1 f1 o1).1
        ⟨false, path⟩ FileAction.modified t2 f2 o2).2.length = 0 ∧
      (process_file
        (process_file (process_file st ⟨false, path⟩ FileAction.modified t1 f1 o1).1
          ⟨false, path⟩ FileAction.modified t2 f2 o2).1
        ⟨false, path⟩ FileAction.modified t3 f3 o3).2.length = 1) := by
  constructor
  · intro h21
    by_cases hs1 : t1 - (dictGet (basename path) st.last_modified_files).getD 0 ≤
        modification_threshold
    · rw [process_file_modified_skip st ⟨false, path⟩ t1 f1 o1 rfl hlog hs1]
      simpa using process_file_len_le_one st ⟨false, path⟩ FileAction.modified t2 f2 o2
    · push_neg at hs1
      obtain ⟨hst, hlen⟩ := process_file_modified_send st ⟨false, path⟩ t1 f1 o1 rfl hlog hs1
      have hlast : (dictGet (basename path)
          ((process_file st ⟨false, path⟩ FileAction.modified t1 f1 o1).1).last_modified_files).getD 0
          = t1 := by
        rw [hst]
        simp [dictGet_dictInsert]
      have hskip2 := process_file_modified_skip
        (process_file st ⟨false, path⟩ FileAction.modified t1 f1 o1).1 ⟨false, path⟩ t2 f2 o2
        rfl hlog (by rw [hlast]; exact h21)
      rw [hlen, hskip2]
      simp
  · intro h1 h21 h31
    obtain ⟨hst, hlen⟩ := process_file_modified_send st ⟨false, path⟩ t1 f1 o1 rfl hlog h1
    have hlast : (dictGet (basename path)
        ((process_file st ⟨false, path⟩ FileAction.modified t1 f1 o1).1).last_modified_files).getD 0
        = t1 := by
      rw [hst]
      simp [dictGet_dictInsert]
    have hskip2 := process_file_modified_skip
      (process_file st ⟨false, path⟩ FileAction.modified t1 f1 o1).1 ⟨false, path⟩ t2 f2 o2
      rfl hlog (by rw [hlast]; exact h21)
    have h3 := process_file_modified_send
      (process_file st ⟨false, path⟩ FileAction.modified t1 f1 o1).1 ⟨false, path⟩ t3 f3 o3
      rfl hlog (by rw [hlast]; omega)
    refine ⟨hlen, ?_, ?_⟩
    · rw [hskip2]
      rfl
    · rw [hskip2]
      dsimp only
      exact h3.2

theorem C4_debounce_idempotence_witness :
    (process_file emptyState ⟨false, ("c.txt")⟩ FileAction.modified 10 ⟨none, none⟩
      true).2.length = 1 ∧
    (process_file (process_file emptyState ⟨false, ("c.txt")⟩ FileAction.modified 10
        ⟨none, none⟩ true).1
      ⟨false, ("c.txt")⟩ FileAction.modified 11 ⟨none, none⟩ true).2.length = 0 ∧
    (process_file
      (process_file (process_file emptyState ⟨false, ("c.txt")⟩ FileAction.modified 10
          ⟨none, none⟩ true).1
        ⟨false, ("c.txt")⟩ FileAction.modified 11 ⟨none, none⟩ true).1
      ⟨false, ("c.txt")⟩ FileAction.modified 16 ⟨none, none⟩ true).2.length = 1 :=
  (C4_debounce_idempotence emptyState ("c.txt") 10 11 16 ⟨none, none⟩ ⟨none, none⟩
    ⟨none, none⟩ true true true (by decide)).2 (by decide) (by decide) (by decide)

/-- C1 counterexample: a non-`.json` file on which reading fails (both
the byte probe and the content read raise, e.g. permission denied) is
classified as the binary sentinel `none`, not as the empty line
sequence: `is_text_file` catches its own read error and returns false,
so `read_file_content` takes the binary branch. -/
theorem C1_read_error_counterexample :
    read_file_content ("a.txt") ⟨none, none⟩ = none ∧
    (none : Option (List String)) ≠ some [] :=
  ⟨rfl, by decide⟩

/-- C1 (amended): read errors in the content-reading step yield the
empty line sequence, distinct from the binary sentinel — this covers a
`.json` file whose open/decode fails, a `.json` file whose content is
malformed JSON, and a text-classified file whose full read or decode
fails; but a file whose initial byte probe fails and whose name lacks the
`.json` suffix is classified binary (`none`). -/
theorem C1_read_error_amended (path : String) (f : FileModel) (t : String) :
    (strEndsWith path (".json") = true → f.text = none →
      read_file_content path f = some []) ∧
    (strEndsWith path (".json") = true → f.text = some t → loads t = none →
      read_file_content path f = some []) ∧
    (strEndsWith path (".json") = false → is_text_file f = true → f.text = none →
      read_file_content path f = some []) ∧
    (strEndsWith path (".json") = false → f.chunk = none →
      read_file_content path f = none) := by
  refine ⟨?_, ?_, ?_, ?_⟩
  · intro hj ht
    simp [read_file_content, hj, ht]
  · intro hj ht hl
    simp [read_file_content, hj, ht, hl]
  · intro hj htf ht
    simp [read_file_content, hj, htf, ht]
  · intro hj hc
    have htf : is_text_file f = false := by simp [is_text_file, hc]
    simp [read_file_content, hj, htf]

theorem C1_read_error_amended_witness :
    read_file_content ("x.json") ⟨none, none⟩ = some [] ∧
    read_file_content ("y.json") ⟨none, some ("not json")⟩ = some [] ∧
    read_file_content ("a.txt") ⟨some [104], none⟩ = some [] ∧
    read_file_content ("b.txt") ⟨none, none⟩ = none :=
  ⟨(C1_read_error_amended ("x.json") ⟨none, none⟩ ("")).1 (by decide) rfl,
   (C1_read_error_amended ("y.json") ⟨none, some ("not json")⟩ ("not json")).2.1
     (by decide) rfl rfl,
   (C1_read_error_amended ("a.txt") ⟨some [104], none⟩ ("")).2.2.1 (by decide) (by decide) rfl,
   (C1_read_error_amended ("b.txt") ⟨none, none⟩ ("")).2.2.2 (by decide) rfl⟩

/-- C6: classifier consistency — for a successfully probed file the
classifier marks it text exactly when every probed byte is below 128 or
is newline, carriage return, or tab; a file failing that test whose name
lacks the `.json` suffix is classified binary regardless of extension;
and a `.json` path bypasses the byte probe entirely: its classification
never yields the binary sentinel and is independent of the probed bytes. -/
theorem C6_classifier_consistency (f : FileModel) (bs : List Nat) (path : String) :
    (f.chunk = some bs →
      (is_text_file f = true ↔
        bs.all (fun c => c < 128 || c == 10 || c == 13 || c == 9) = true)) ∧
    (f.chunk = some bs →
      bs.all (fun c => c < 128 || c == 10 || c == 13 || c == 9) = false →
      strEndsWith path (".json") = false → read_file_content path f = none) ∧
    (strEndsWith path (".json") = true → read_file_content path f ≠ none) ∧
    (strEndsWith path (".json") = true → ∀ (c1 c2 : Option (List Nat)) (tx : Option String),
      read_file_content path ⟨c1, tx⟩ = read_file_content path ⟨c2, tx⟩) := by
  refine ⟨?_, ?_, ?_, ?_⟩
  · intro hc
    simp [is_text_file, hc]
  · intro hc hall hj
    have htf : is_text_file f = false := by simp [is_text_file, hc, hall]
    simp [read_file_content, hj, htf]
  · intro hj
    simp only [read_file_content, hj, if_true]
    cases f.text with
    | none => simp
    | some t => rcases hL : loads t <;> simp [hL]
  · intro hj c1 c2 tx
    simp [read_file_content, hj]

theorem C6_classifier_consistency_witness :
    (is_text_file ⟨some [104, 200], none⟩ = true ↔
      ([104, 200].all (fun c => c < 128 || c == 10 || c == 13 || c == 9)) = true) ∧
    read_file_content ("img.png") ⟨some [104, 200], none⟩ = none ∧
    read_file_content ("d.json") ⟨some [104, 200], some ("1")⟩ ≠ none :=
  ⟨(C6_classifier_consistency ⟨some [104, 200], none⟩ [104, 200] ("img.png")).1 rfl,
   (C6_classifier_consistency ⟨some [104, 200], none⟩ [104, 200] ("img.png")).2.1 rfl
     (by decide) (by decide),
   (C6_classifier_consistency ⟨some [104, 200], some ("1")⟩ [104, 200] ("d.json")).2.2.1
     (by decide)⟩

/-- C7: a `.json` file whose content parses as JSON is cached as the
re-serialization with 4-space indentation split into lines; in
particular the single-line input content with key `x` and value 1 is
cached as exactly the three pretty-printed lines, not the raw input. -/
theorem C7_json_pretty_printed (path : String) (f : FileModel) (t : String) (j : JsonVal)
    (hj : strEndsWith path (".json") = true) (ht : f.text = some t)
    (hl : loads t = some j) :
    read_file_content path f = some (splitlines (dumps j)) ∧
    read_file_content ("b.json") ⟨none, some ("\x7b\"x\":1\x7d")⟩ =
      some [("\x7b"), ("    \"x\": 1"), ("\x7d")] := by
  constructor
  · simp [read_file_content, hj, ht, hl]
  · rfl

theorem C7_json_pretty_printed_witness :
    read_file_content ("b.json") ⟨none, some ("\x7b\"x\":1\x7d")⟩ =
      some (splitlines (dumps (JsonVal.obj [(("x"), JsonVal.num 1)]))) :=
  (C7_json_pretty_printed ("b.json") ⟨none, some ("\x7b\"x\":1\x7d")⟩ ("\x7b\"x\":1\x7d")
    (JsonVal.obj [(("x"), JsonVal.num 1)]) (by decide) rfl rfl).1

theorem mem_sliceList (l : List String) (i j : Nat) (x : String)
    (h : x ∈ sliceList l i j) : x ∈ l :=
  List.mem_of_mem_drop (List.mem_of_mem_take h)

theorem formatOpcode_mem (a b : List String) (c : Opcode) (l : String)
    (h : l ∈ formatOpcode a b c) :
    (∃ x, x ∈ a ∧ (l = ("-") ++ x ∨ l = (" ") ++ x)) ∨
    (∃ x, x ∈ b ∧ l = ("+") ++ x) := by
  cases hc : c.tag <;> simp only [formatOpcode, hc] at h
  case replace =>
    rcases List.mem_append.mp h with h2 | h2
    · obtain ⟨x, hx, rfl⟩ := List.mem_map.mp h2
      exact Or.inl ⟨x, mem_sliceList a c.i1 c.i2 x hx, Or.inl rfl⟩
    · obtain ⟨x, hx, rfl⟩ := List.mem_map.mp h2
      exact Or.inr ⟨x, mem_sliceList b c.j1 c.j2 x hx, rfl⟩
  case delete =>
    obtain ⟨x, hx, rfl⟩ := List.mem_map.mp h
    exact Or.inl ⟨x, mem_sliceList a c.i1 c.i2 x hx, Or.inl rfl⟩
  case insert =>
    obtain ⟨x, hx, rfl⟩ := List.mem_map.mp h
    exact Or.inr ⟨x, mem_sliceList b c.j1 c.j2 x hx, rfl⟩
  case equal =>
    obtain ⟨x, hx, rfl⟩ := List.mem_map.mp h
    exact Or.inl ⟨x, mem_sliceList a c.i1 c.i2 x hx, Or.inr rfl⟩

theorem formatGroup_mem (a b : List String) (grp : List Opcode) (l : String)
    (h : l ∈ formatGroup a b grp) :
    (∃ s t, l = ("@@ -") ++ s ++ (" +") ++ t ++ (" @@")) ∨
    (∃ x, x ∈ a ∧ (l = ("-") ++ x ∨ l = (" ") ++ x)) ∨
    (∃ x, x ∈ b ∧ l = ("+") ++ x) := by
  cases grp with
  | nil => simp [formatGroup] at h
  | cons first rest =>
    simp only [formatGroup, List.mem_cons] at h
    rcases h with rfl | h
    · exact Or.inl ⟨_, _, rfl⟩
    · obtain ⟨c, _, hc⟩ := List.mem_flatMap.mp h
      exact Or.inr (formatOpcode_mem a b c l hc)

/-- C5: the diff text for a processed modification — with no cached old
content it is the new lines joined by newlines with no diff markers;
otherwise it is the joined unified diff of the two line lists with
headers labelled `before_<name>` and `after_<name>`; every unified-diff
entry is one of the two file headers, an `@@` hunk header, or an old/new
line carrying exactly a `-`, `+`, or space prefix with nothing appended;
and the output of these pure functions is byte-identical on identical
inputs. -/
theorem C5_diff_engine (old new : List String) (name ff tf : String) (n : Nat)
    (l : String) :
    diff_content none new name = String.intercalate ("\n") new ∧
    diff_content (some old) new name =
      String.intercalate ("\n")
        (unified_diff old new (("before_") ++ name) (("after_") ++ name) 3) ∧
    (unified_diff old new ff tf n = [] ∨
      (unified_diff old new ff tf n).take 2 = [("--- ") ++ ff, ("+++ ") ++ tf]) ∧
    (l ∈ (unified_diff old new ff tf n).drop 2 →
      (∃ s t, l = ("@@ -") ++ s ++ (" +") ++ t ++ (" @@")) ∨
      (∃ x, x ∈ old ∧ (l = ("-") ++ x ∨ l = (" ") ++ x)) ∨
      (∃ x, x ∈ new ∧ l = ("+") ++ x)) := by
  refine ⟨rfl, rfl, ?_, ?_⟩
  · cases h : getGroupedOpcodes old new n with
    | nil =>
      left
      simp [unified_diff, h]
    | cons g gs =>
      right
      simp [unified_diff, h]
  · intro hl
    cases h : getGroupedOpcodes old new n with
    | nil => simp [unified_diff, h] at hl
    | cons g gs =>
      simp only [unified_diff, h, List.drop_succ_cons, List.drop_zero] at hl
      obtain ⟨grp, _, hg⟩ := List.mem_flatMap.mp hl
      exact formatGroup_mem old new grp l hg

theorem C5_diff_engine_witness :
    diff_content none (["b"]) ("f") = ("b") ∧
    ((∃ s t, ("-a") = ("@@ -") ++ s ++ (" +") ++ t ++ (" @@")) ∨
      (∃ x, x ∈ (["a"]) ∧ (("-a") = ("-") ++ x ∨ ("-a") = (" ") ++ x)) ∨
      (∃ x, x ∈ (["b"]) ∧ ("-a") = ("+") ++ x)) :=
  ⟨(C5_diff_engine (["a"]) (["b"]) ("f") ("bf") ("af") 3 ("-a")).1,
   (C5_diff_engine (["a"]) (["b"]) ("f") ("bf") ("af") 3 ("-a")).2.2.2 (by decide)⟩
